import Mathlib

/-!
# Verification of the SimpleOpenAIBot core (src/main.py)

A shallow embedding of the token-budgeted chunker, the conversation-history
store, and the send/clear orchestration of `src/main.py`, together with
theorems checking the natural-language specification against it.

Strings are modelled as `List Char` (named `Str`) so that the Python string
operations used by the source (`str.strip`, `str.split('\n')`, concatenation)
become structurally recursive Lean functions.  External collaborators are
modelled as parameters:

* `tiktoken` (behind `count_tokens`) is an arbitrary deterministic token
  counter `tok : Str -> Nat`, which is exactly the contract the source
  assumes of it;
* `json.load` (Python stdlib) is modelled by presenting a file's contents in
  already-decoded form (absent / JSON-decode-error / decoded value);
* the OpenAI endpoint and the filesystem reads are oracles
  `List Message -> Except Str Str` and `Str -> Except Str Str`.
-/

namespace SimpleBot

/-- Python strings, modelled as lists of characters. -/
abbrev Str := List Char

/-- The whitespace characters removed by Python `str.strip()` (ASCII range). -/
def isPySpace (c : Char) : Bool :=
  c == ' ' || c == '\t' || c == '\n' || c == '\r' || c == '\x0b' || c == '\x0c'

/-- Python `s.strip()`: drop whitespace from both ends. -/
def pyStrip (s : Str) : Str :=
  ((s.dropWhile isPySpace).reverse.dropWhile isPySpace).reverse

/-- Python `s.split('\n')`: split on every newline, keeping empty pieces;
the empty string yields `[""]`. -/
def splitLines : Str → List Str
  | [] => [[]]
  | c :: rest =>
    if c = '\n' then [] :: splitLines rest
    else
      match splitLines rest with
      | [] => [[c]]
      | l :: ls => (c :: l) :: ls

/-- Join a list of lines with newline separators (the inverse of `splitLines`
and the separator convention of the spec's round-trip property). -/
def joinLines : List Str → Str
  | [] => []
  | l :: ls => l ++ (ls.map (fun x => '\n' :: x)).flatten

/-- `CHUNK_SIZE` from src/main.py line 12. -/
def CHUNK_SIZE : Nat := 3000

/-- The `for paragraph in paragraphs` loop of `chunk_text`
(src/main.py lines 37-47), carried out with explicit state
`(chunks, current_chunk)`.  `count_tokens` (tiktoken-backed, line 19-25) is
the parameter `tok`. -/
def chunkLoop (tok : Str → Nat) (maxTokens : Nat) :
    List Str → List Str → Str → List Str × Str
  | [], chunks, current => (chunks, current)
  | p :: ps, chunks, current =>
    if maxTokens < tok (pyStrip (current ++ '\n' :: p)) ∧ current ≠ [] then
      chunkLoop tok maxTokens ps (chunks ++ [current]) p
    else if current = [] then
      chunkLoop tok maxTokens ps chunks p
    else
      chunkLoop tok maxTokens ps chunks (current ++ '\n' :: p)

/-- `chunk_text` (src/main.py lines 28-53): split on newlines, grow a current
chunk, flush it when the stripped candidate exceeds the budget, and append the
leftover buffer when its stripped form is non-empty. -/
def chunk_text (tok : Str → Nat) (text : Str) (maxTokens : Nat) : List Str :=
  let r := chunkLoop tok maxTokens (splitLines text) [] []
  if pyStrip r.2 ≠ [] then r.1 ++ [r.2] else r.1

/-- Message roles used by the source: developer, user, assistant. -/
inductive Role where
  | developer
  | user
  | assistant
deriving DecidableEq, Repr

/-- One `{"role": ..., "content": ...}` record of the conversation history. -/
structure Message where
  role : Role
  content : Str
deriving DecidableEq, Repr

/-- `add_developer_message` (src/main.py lines 79-84): append one record. -/
def add_developer_message (history : List Message) (content : Str) : List Message :=
  history ++ [⟨Role.developer, content⟩]

/-- `add_user_message` (src/main.py lines 87-91): append one record. -/
def add_user_message (history : List Message) (content : Str) : List Message :=
  history ++ [⟨Role.user, content⟩]

/-- `add_assistant_message` (src/main.py lines 94-98): append one record. -/
def add_assistant_message (history : List Message) (content : Str) : List Message :=
  history ++ [⟨Role.assistant, content⟩]

/-- The `messages` field of the request built by `send_chat_completion`
(src/main.py lines 101-113): the history list is passed to the endpoint
unchanged (`messages=history`). -/
def completionRequestMessages (history : List Message) : List Message :=
  history

/-- `save_history` (src/main.py lines 71-76): the persisted file is
overwritten with the current history. -/
def save_history (_oldContents newContents : List Message) : List Message :=
  newContents

/-- JSON values, for modelling what `json.load` can hand back to
`load_or_init_history`. -/
inductive Json where
  | null
  | bool (b : Bool)
  | num (n : Int)
  | str (s : Str)
  | arr (elems : List Json)
  | obj (fields : List (Str × Json))

/-- Whether a list of JSON object fields contains a string-valued field with
the given name. -/
def isStrField (fields : List (Str × Json)) (name : Str) : Bool :=
  fields.any fun f =>
    name == f.1 && (match f.2 with | Json.str _ => true | _ => false)

/-- The "expected structure" of the persisted history per the spec: an
ordered list of objects carrying string `role` and `content` fields. -/
def isHistoryJson : Json → Bool
  | Json.arr msgs =>
      msgs.all fun m =>
        match m with
        | Json.obj fields =>
            isStrField fields ("role".data) && isStrField fields ("content".data)
        | _ => false
  | _ => false

/-- `load_or_init_history` (src/main.py lines 56-68).  The external
`json.load` (Python stdlib) is modelled by presenting the file in decoded
form: `none` = file absent, `some (.error e)` = file exists but `json.load`
raises `JSONDecodeError`, `some (.ok v)` = file exists and decodes to the
JSON value `v`.  The source returns `[]` for an absent file, `[]` when
`json.load` raises, and the decoded value itself otherwise - it performs no
structural validation of the decoded value. -/
def load_or_init_history (file : Option (Except Str Json)) : Json :=
  match file with
  | none => Json.arr []
  | some (Except.error _) => Json.arr []
  | some (Except.ok v) => v

/-- `initial_instructions` (src/main.py lines 122-126). -/
def initial_instructions : Str :=
  ("You are a helpful code assistant that can review, debug, and discuss code. " ++
   "You have a limited context window, so keep your answers concise. " ++
   "Your role is \x27developer\x27, which is like a system role for some models.").data

/-- The popup text shown by the `-CLEAR_CONVO-` handler (src/main.py
line 188): the code itself documents that the next prompt starts fresh
developer instructions. -/
def clearConvoPopup : Str :=
  ("Conversation cleared. Next prompt will start fresh developer instructions.").data

/-- The warning popup of the `-SEND-` handler when both the stripped prompt
and the loaded-file list are empty (src/main.py line 193). -/
def emptySendWarning : Str :=
  ("Please either enter a prompt or load files to send.").data

/-- The `f"Error: {str(e)}"` display text (src/main.py line 218). -/
def errStr (e : Str) : Str :=
  ("Error: ").data ++ e

/-- The startup priming of `main` (src/main.py lines 116-128): if the loaded
history is empty, a developer message with `initial_instructions` is appended
(and persisted).  This runs once per process, before the event loop. -/
def startupHistory (loaded : List Message) : List Message :=
  if loaded = [] then add_developer_message loaded initial_instructions else loaded

/-- The in-memory and on-disk state the `-SEND-` and `-CLEAR_CONVO-` handlers
touch: `conversation_history`, `loaded_files`, the persisted
`conversation_history.json` contents, and the `-RESPONSE-`, `-PROMPT-`,
`-FILES-` window fields. -/
structure AppState where
  history : List Message
  loadedFiles : List Str
  persisted : List Message
  response : Str
  promptField : Str
  filesField : Str
deriving DecidableEq, Repr

/-- `os.path.basename` for the forward-slash-separated paths the model uses:
everything after the last separator. -/
def basename (p : Str) : Str :=
  (p.reverse.takeWhile (fun c => c ≠ '/')).reverse

/-- The `f"[FILE: {os.path.basename(fp)}, PART {idx}]\n{chunk}"` header
(src/main.py line 202). -/
def chunk_msg (fp : Str) (idx : Nat) (chunk : Str) : Str :=
  ("[FILE: ").data ++ basename fp ++ (", PART ").data ++ Nat.toDigits 10 idx ++
    ("]\n").data ++ chunk

/-- The file-ingestion loop of the `-SEND-` handler (src/main.py
lines 196-203): read each loaded file, chunk it with `CHUNK_SIZE`, and append
one user message per chunk with a 1-based part header.  `rf` models
`open(fp).read()`; a failing read raises in the source, which aborts the loop
with the messages appended so far (history is mutated in place), so the
error case carries the partially extended history. -/
def ingestFiles (rf : Str → Except Str Str) (tok : Str → Nat) :
    List Str → List Message → Except (Str × List Message) (List Message)
  | [], history => Except.ok history
  | fp :: rest, history =>
    match rf fp with
    | Except.error e => Except.error (e, history)
    | Except.ok content =>
        ingestFiles rf tok rest
          (history ++ ((chunk_text tok content CHUNK_SIZE).enumFrom 1).map
            (fun p => Message.mk Role.user (chunk_msg fp p.1 p.2)))

/-- Step 2 of the `-SEND-` handler (src/main.py lines 209-211): if the user
typed an actual (stripped) prompt, append it as a user message. -/
def afterPrompt (st : AppState) (hist1 : List Message) : List Message :=
  if pyStrip st.promptField = [] then hist1
  else add_user_message hist1 (pyStrip st.promptField)

/-- Result of one `-SEND-` event.  `rejected` is the early `continue` with a
warning popup; `crashed` is an uncaught file-read exception escaping the
handler (and the event loop), carrying the in-memory state at that moment;
`completed` carries the history handed to the completion call and the final
state. -/
inductive SendOutcome where
  | rejected (warning : Str) (st : AppState)
  | crashed (exn : Str) (st : AppState)
  | completed (sent : List Message) (st : AppState)
deriving DecidableEq, Repr

/-- Steps 3-6 of the `-SEND-` handler (src/main.py lines 213-226): call the
completion endpoint on the accumulated history; on success append the answer
as an assistant message, on failure set the display text to
`f"Error: {str(e)}"` and append nothing; in both cases show the answer,
persist the history, and clear the prompt field. -/
def finishSend (cm : List Message → Except Str Str) (st : AppState)
    (hist2 : List Message) : SendOutcome :=
  match cm (completionRequestMessages hist2) with
  | Except.ok answer =>
      SendOutcome.completed hist2
        { st with
          history := add_assistant_message hist2 answer
          persisted := save_history st.persisted (add_assistant_message hist2 answer)
          loadedFiles := []
          filesField := []
          response := answer
          promptField := [] }
  | Except.error e =>
      SendOutcome.completed hist2
        { st with
          history := hist2
          persisted := save_history st.persisted hist2
          loadedFiles := []
          filesField := []
          response := errStr e
          promptField := [] }

/-- The `-SEND-` handler (src/main.py lines 190-226).  `rf` models file
reads, `tok` the tokenizer, `cm` the completion endpoint.  Note that
`loaded_files = []` (line 206) runs only after the ingestion loop finishes,
so a read failure leaves the loaded-file list untouched. -/
def sendEvent (rf : Str → Except Str Str) (tok : Str → Nat)
    (cm : List Message → Except Str Str) (st : AppState) : SendOutcome :=
  if pyStrip st.promptField = [] ∧ st.loadedFiles = [] then
    SendOutcome.rejected emptySendWarning st
  else
    match ingestFiles rf tok st.loadedFiles st.history with
    | Except.error ep => SendOutcome.crashed ep.1 { st with history := ep.2 }
    | Except.ok hist1 => finishSend cm st (afterPrompt st hist1)

/-- The `-CLEAR_CONVO-` handler (src/main.py lines 184-188): empty the
history, persist the empty history, clear the response pane.  No developer
message is appended here or on any later `-SEND-`. -/
def clearConvoEvent (st : AppState) : AppState :=
  { st with
    history := []
    persisted := save_history st.persisted []
    response := [] }

/-- The roles of the history handed to the completion endpoint by a send
(empty when the send did not reach the completion call). -/
def sentRoles : SendOutcome → List Role
  | SendOutcome.completed sent _ => sent.map Message.role
  | _ => []

/-- The loaded-file list after a send event, over all outcomes. -/
def loadedAfter : SendOutcome → List Str
  | SendOutcome.rejected _ st => st.loadedFiles
  | SendOutcome.crashed _ st => st.loadedFiles
  | SendOutcome.completed _ st => st.loadedFiles

/-- Everything observable about a send outcome except the literal text left
in the prompt input box. -/
structure SendView where
  tag : Nat
  note : Str
  sent : List Message
  history : List Message
  persisted : List Message
  loadedFiles : List Str
  response : Str
deriving DecidableEq, Repr

/-- Project a send outcome to its `SendView`. -/
def sendCore : SendOutcome → SendView
  | SendOutcome.rejected w st =>
      ⟨0, w, [], st.history, st.persisted, st.loadedFiles, st.response⟩
  | SendOutcome.crashed e st =>
      ⟨1, e, [], st.history, st.persisted, st.loadedFiles, st.response⟩
  | SendOutcome.completed sent st =>
      ⟨2, [], sent, st.history, st.persisted, st.loadedFiles, st.response⟩

/-! ## Helper lemmas about `pyStrip`, `splitLines`, `joinLines` -/

/-- `pyStrip` gives the empty string exactly when every character is
whitespace. -/
theorem pyStrip_eq_nil (s : Str) : pyStrip s = [] ↔ ∀ c ∈ s, isPySpace c := by
  unfold pyStrip
  rw [List.reverse_eq_nil_iff, List.dropWhile_eq_nil_iff]
  constructor
  · intro h c hc
    have hsplit := List.takeWhile_append_dropWhile isPySpace s
    rw [← hsplit] at hc
    rcases List.mem_append.mp hc with h1 | h2
    · exact List.mem_takeWhile_imp h1
    · exact h c (List.mem_reverse.mpr h2)
  · intro h c hc
    exact h c ((List.dropWhile_sublist isPySpace).mem (List.mem_reverse.mp hc))

/-- A string with a non-whitespace character keeps one after appending. -/
theorem pyStrip_append_ne_nil (s t : Str) (h : pyStrip s ≠ []) :
    pyStrip (s ++ t) ≠ [] := by
  intro hc
  apply h
  rw [pyStrip_eq_nil] at hc ⊢
  intro c hcs
  exact hc c (List.mem_append.mpr (Or.inl hcs))

/-- `splitLines` always returns at least one line. -/
theorem splitLines_ne_nil (s : Str) : splitLines s ≠ [] := by
  induction s with
  | nil => simp [splitLines]
  | cons c rest ih =>
    by_cases h : c = '\n'
    · simp [splitLines, h]
    · simp only [splitLines, if_neg h]
      cases hsr : splitLines rest <;> simp

/-- A string without newline characters is a single line. -/
theorem splitLines_no_newline (s : Str) (h : ∀ c ∈ s, c ≠ '\n') :
    splitLines s = [s] := by
  induction s with
  | nil => rfl
  | cons c rest ih =>
    have hc : c ≠ '\n' := h c (List.mem_cons_self c rest)
    have hr : splitLines rest = [rest] :=
      ih fun x hx => h x (List.mem_cons_of_mem c hx)
    simp [splitLines, hc, hr]

/-- Joining the lines of a split reconstructs the string. -/
theorem joinLines_splitLines (s : Str) : joinLines (splitLines s) = s := by
  induction s with
  | nil => rfl
  | cons c rest ih =>
    by_cases h : c = '\n'
    · subst h
      rcases hsr : splitLines rest with _ | ⟨l, ls⟩
      · exact absurd hsr (splitLines_ne_nil rest)
      · have hsp : splitLines ('\n' :: rest) = [] :: splitLines rest := by
          simp [splitLines]
        rw [hsp, hsr]
        rw [hsr] at ih
        simp only [joinLines, List.map_cons, List.flatten_cons, List.nil_append,
          List.cons_append] at ih ⊢
        rw [ih]
    · rcases hsr : splitLines rest with _ | ⟨l, ls⟩
      · exact absurd hsr (splitLines_ne_nil rest)
      · have hsp : splitLines (c :: rest) = (c :: l) :: ls := by
          simp only [splitLines, if_neg h, hsr]
        rw [hsp]
        rw [hsr] at ih
        simp only [joinLines, List.cons_append] at ih ⊢
        rw [ih]

/-- Extending the last line of a line list extends the join. -/
theorem joinLines_append_last (cs : List Str) (x y : Str) :
    joinLines (cs ++ [x ++ y]) = joinLines (cs ++ [x]) ++ y := by
  cases cs with
  | nil => simp [joinLines]
  | cons c cs' =>
    simp [joinLines, List.map_append, List.flatten_append, List.append_assoc]

/-- Appending a further line to a non-empty line list appends a newline and
that line to the join. -/
theorem joinLines_snoc (l : List Str) (p : Str) (h : l ≠ []) :
    joinLines (l ++ [p]) = joinLines l ++ '\n' :: p := by
  cases l with
  | nil => exact absurd rfl h
  | cons c0 cs =>
    simp [joinLines, List.map_append, List.flatten_append, List.append_assoc]

/-! ## Invariants of the chunking loop -/

/-- Budget invariant of the chunking loop: if every remaining line is within
the budget after stripping, every accumulated chunk is within the budget
after stripping, and the current buffer is empty or within the budget after
stripping, then the same holds of the loop's final chunks and buffer. -/
theorem chunkLoop_budget (tok : Str → Nat) (N : Nat) :
    ∀ (ps chunks : List Str) (current : Str),
      (∀ l ∈ ps, tok (pyStrip l) ≤ N) →
      (∀ c ∈ chunks, tok (pyStrip c) ≤ N) →
      (current = [] ∨ tok (pyStrip current) ≤ N) →
      (∀ c ∈ (chunkLoop tok N ps chunks current).1, tok (pyStrip c) ≤ N) ∧
        ((chunkLoop tok N ps chunks current).2 = [] ∨
          tok (pyStrip (chunkLoop tok N ps chunks current).2) ≤ N) := by
  intro ps
  induction ps with
  | nil => intro chunks current hps hch hcur; exact ⟨hch, hcur⟩
  | cons p ps ih =>
    intro chunks current hps hch hcur
    have hp : tok (pyStrip p) ≤ N := hps p (List.mem_cons_self p ps)
    have hps' : ∀ l ∈ ps, tok (pyStrip l) ≤ N :=
      fun l hl => hps l (List.mem_cons_of_mem p hl)
    unfold chunkLoop
    by_cases hflush : N < tok (pyStrip (current ++ '\n' :: p)) ∧ current ≠ []
    · rw [if_pos hflush]
      apply ih _ _ hps' _ (Or.inr hp)
      intro c hc
      rcases List.mem_append.mp hc with h1 | h2
      · exact hch c h1
      · rw [List.mem_singleton.mp h2]
        rcases hcur with hnil | hle
        · exact absurd hnil hflush.2
        · exact hle
    · rw [if_neg hflush]
      by_cases hemp : current = []
      · rw [if_pos hemp]
        exact ih chunks p hps' hch (Or.inr hp)
      · rw [if_neg hemp]
        apply ih _ _ hps' hch
        right
        rcases not_and_or.mp hflush with h1 | h2
        · exact Nat.le_of_not_lt h1
        · exact absurd (not_not.mp h2) hemp

/-- Reconstruction invariant of the chunking loop: when every remaining line
contains a non-whitespace character and the buffer does too, the join of the
final chunks plus buffer extends the join of the initial chunks plus buffer
by exactly the remaining lines, and the final buffer still contains a
non-whitespace character. -/
theorem chunkLoop_join (tok : Str → Nat) (N : Nat) :
    ∀ (ps chunks : List Str) (current : Str),
      (∀ l ∈ ps, pyStrip l ≠ []) →
      pyStrip current ≠ [] →
      joinLines ((chunkLoop tok N ps chunks current).1 ++
          [(chunkLoop tok N ps chunks current).2]) =
        joinLines (chunks ++ [current]) ++
          (ps.map (fun l => '\n' :: l)).flatten ∧
        pyStrip (chunkLoop tok N ps chunks current).2 ≠ [] := by
  intro ps
  induction ps with
  | nil =>
    intro chunks current hps hcur
    simp only [chunkLoop, List.map_nil, List.flatten_nil, List.append_nil]
    exact ⟨trivial, hcur⟩
  | cons p ps ih =>
    intro chunks current hps hcur
    have hcurne : current ≠ [] := by
      intro h
      rw [h] at hcur
      exact hcur rfl
    have hp : pyStrip p ≠ [] := hps p (List.mem_cons_self p ps)
    have hps' : ∀ l ∈ ps, pyStrip l ≠ [] :=
      fun l hl => hps l (List.mem_cons_of_mem p hl)
    unfold chunkLoop
    by_cases hflush : N < tok (pyStrip (current ++ '\n' :: p)) ∧ current ≠ []
    · rw [if_pos hflush]
      rcases ih (chunks ++ [current]) p hps' hp with ⟨hj, hs⟩
      refine ⟨?_, hs⟩
      rw [hj, joinLines_snoc (chunks ++ [current]) p (by simp)]
      simp [List.append_assoc]
    · rw [if_neg hflush, if_neg hcurne]
      rcases ih chunks (current ++ '\n' :: p) hps'
          (pyStrip_append_ne_nil current ('\n' :: p) hcur) with ⟨hj, hs⟩
      refine ⟨?_, hs⟩
      rw [hj, joinLines_append_last chunks current ('\n' :: p)]
      simp [List.append_assoc]

/-! ## Claim C2: chunk round-trip -/

/-- Claim C2 counterexample: for the text `"\na\n"` and budget 100 (with the
length tokenizer, whose counts on these inputs are at or below any plausible
budget), the chunks join to `"a\n"`, which is neither the stripped original
`"a"` nor the original text `"\na\n"`: the leading empty line is dropped
while the buffer is empty and the trailing newline survives inside the final
chunk unstripped. -/
theorem chunk_text_roundtrip_counterexample :
    joinLines (chunk_text List.length ('\n':: 'a':: '\n'::[]) 100) ≠
        pyStrip ('\n':: 'a':: '\n'::[]) ∧
      joinLines (chunk_text List.length ('\n':: 'a':: '\n'::[]) 100) ≠
        ('\n':: 'a':: '\n'::[]) ∧ 0 < 100 := by decide

/-- Claim C2 (amended): for every tokenizer, budget, and text all of whose
lines contain a non-whitespace character, concatenating the chunks returned
by `chunk_text` with newline separators reproduces the original text
exactly. -/
theorem chunk_text_roundtrip (tok : Str → Nat) (N : Nat) (text : Str)
    (_hN : 0 < N) (h : ∀ l ∈ splitLines text, pyStrip l ≠ []) :
    joinLines (chunk_text tok text N) = text := by
  rcases hsp : splitLines text with _ | ⟨p0, rest⟩
  · exact absurd hsp (splitLines_ne_nil text)
  · rw [hsp] at h
    have hp0 : pyStrip p0 ≠ [] := h p0 (List.mem_cons_self p0 rest)
    have hrest : ∀ l ∈ rest, pyStrip l ≠ [] :=
      fun l hl => h l (List.mem_cons_of_mem p0 hl)
    unfold chunk_text
    rw [hsp]
    have hstep : chunkLoop tok N (p0 :: rest) [] [] = chunkLoop tok N rest [] p0 := by
      simp [chunkLoop]
    rw [hstep]
    rcases chunkLoop_join tok N rest [] p0 hrest hp0 with ⟨hj, hs⟩
    rw [if_pos hs, hj]
    have hjs := joinLines_splitLines text
    rw [hsp] at hjs
    simp only [joinLines, List.nil_append, List.map_nil, List.flatten_nil,
      List.append_nil] at hjs ⊢
    exact hjs

/-- Claim C2 witness: the amended round-trip at the concrete text
`"ab\ncd"` with the length tokenizer and budget 5. -/
theorem chunk_text_roundtrip_witness :
    joinLines (chunk_text List.length ('a':: 'b':: '\n':: 'c':: 'd'::[]) 5) =
      ('a':: 'b':: '\n':: 'c':: 'd'::[]) :=
  chunk_text_roundtrip List.length 5 ('a':: 'b':: '\n':: 'c':: 'd'::[])
    (by decide) (by decide)

/-! ## Claim C5: chunk budget -/

/-- Claim C5 counterexample: for the text `"a\n "` and budget 1 with the
length tokenizer, both lines are individually within the budget, yet the
single emitted chunk `"a\n "` has count 3 > 1 - the loop checks the budget on
the stripped candidate but keeps the unstripped buffer, so trailing
whitespace accumulates uncounted. -/
theorem chunk_text_budget_counterexample :
    (∀ l ∈ splitLines ('a':: '\n':: ' '::[]), List.length l ≤ 1) ∧
      ¬ (∀ c ∈ chunk_text List.length ('a':: '\n':: ' '::[]) 1,
          List.length c ≤ 1) := by decide

/-- Claim C5 (amended): for every tokenizer, budget, and text all of whose
stripped lines have token count at most `N`, every chunk emitted by
`chunk_text` has stripped token count at most `N`. -/
theorem chunk_text_budget (tok : Str → Nat) (N : Nat) (text : Str)
    (_hN : 0 < N) (h : ∀ l ∈ splitLines text, tok (pyStrip l) ≤ N) :
    ∀ c ∈ chunk_text tok text N, tok (pyStrip c) ≤ N := by
  intro c hc
  unfold chunk_text at hc
  rcases chunkLoop_budget tok N (splitLines text) [] [] h (by simp)
      (Or.inl rfl) with ⟨h1, h2⟩
  by_cases hfin : pyStrip (chunkLoop tok N (splitLines text) [] []).2 ≠ []
  · rw [if_pos hfin] at hc
    rcases List.mem_append.mp hc with ha | hb
    · exact h1 c ha
    · rw [List.mem_singleton.mp hb]
      rcases h2 with hnil | hle
      · rw [hnil] at hfin
        exact absurd rfl hfin
      · exact hle
  · rw [if_neg hfin] at hc
    exact h1 c hc

/-- Claim C5 witness: the amended budget property at the concrete text
`"ab\ncd"` with the length tokenizer and budget 2, evaluated on the chunk
`"ab"`. -/
theorem chunk_text_budget_witness :
    List.length (pyStrip ('a':: 'b'::[])) ≤ 2 :=
  chunk_text_budget List.length 2 ('a':: 'b':: '\n':: 'c':: 'd'::[])
    (by decide) (by decide) ('a':: 'b'::[]) (by decide)

/-! ## Claim C8: oversized single line -/

/-- Claim C8 counterexample: the whitespace-only single line `"  "` with
budget 1 and the length tokenizer exceeds the budget yet yields zero chunks,
not one - the final buffer is discarded because its stripped form is
empty. -/
theorem chunk_text_single_line_counterexample :
    (∀ c ∈ (' ':: ' '::[]), c ≠ '\n') ∧
      1 < List.length (' ':: ' '::[]) ∧
      chunk_text List.length (' ':: ' '::[]) 1 = [] := by decide

/-- Claim C8 (amended): a single line (no newline characters) containing a
non-whitespace character whose token count exceeds `N` yields exactly one
chunk equal to that line. -/
theorem chunk_text_single_line (tok : Str → Nat) (N : Nat) (text : Str)
    (hnl : ∀ c ∈ text, c ≠ '\n') (hws : pyStrip text ≠ [])
    (_hbig : N < tok text) :
    chunk_text tok text N = [text] := by
  unfold chunk_text
  rw [splitLines_no_newline text hnl]
  have hstep : chunkLoop tok N [text] [] [] = ([], text) := by
    simp [chunkLoop]
  rw [hstep]
  simp [hws]

/-- Claim C8 witness: the amended single-line property at the concrete line
`"ab"` with the length tokenizer and budget 1. -/
theorem chunk_text_single_line_witness :
    chunk_text List.length ('a':: 'b'::[]) 1 = [('a':: 'b'::[])] :=
  chunk_text_single_line List.length 1 ('a':: 'b'::[]) (by decide) (by decide)
    (by decide)

/-! ## Claim C4: load_or_init on absent / unparseable files -/

/-- Claim C4 counterexample: a history file holding the valid JSON `42`,
which is not the expected structure of role/content records, is returned
as-is by `load_or_init_history` rather than replaced by an empty history -
the source only catches `JSONDecodeError` and never validates the decoded
value's shape. -/
theorem load_or_init_counterexample :
    load_or_init_history (some (Except.ok (Json.num 42))) = Json.num 42 ∧
      isHistoryJson (Json.num 42) = false ∧
      load_or_init_history (some (Except.ok (Json.num 42))) ≠ Json.arr [] := by
  refine ⟨rfl, rfl, ?_⟩
  intro h
  exact Json.noConfusion h

/-- Claim C4 (amended): `load_or_init_history` returns an empty history when
the file is absent and when its contents fail to decode as JSON; when the
contents decode to any JSON value, that value is returned unchanged, with no
validation that it is a list of role/content records. -/
theorem load_or_init_amended (v : Json) (e : Str) :
    load_or_init_history none = Json.arr [] ∧
      load_or_init_history (some (Except.error e)) = Json.arr [] ∧
      load_or_init_history (some (Except.ok v)) = v :=
  ⟨rfl, rfl, rfl⟩

/-! ## Claim C7: append-only history, full replay -/

/-- Claim C7: each mutation appends exactly one message at the end, leaving
every previously appended message unchanged and in place, and the completion
request carries the full accumulated history unchanged and in order. -/
theorem history_append_only (h : List Message) (c : Str) :
    add_developer_message h c = h ++ [⟨Role.developer, c⟩] ∧
      add_user_message h c = h ++ [⟨Role.user, c⟩] ∧
      add_assistant_message h c = h ++ [⟨Role.assistant, c⟩] ∧
      (add_developer_message h c).take h.length = h ∧
      (add_user_message h c).take h.length = h ∧
      (add_assistant_message h c).take h.length = h ∧
      (add_developer_message h c).length = h.length + 1 ∧
      (add_user_message h c).length = h.length + 1 ∧
      (add_assistant_message h c).length = h.length + 1 ∧
      completionRequestMessages h = h := by
  refine ⟨rfl, rfl, rfl, ?_, ?_, ?_, ?_, ?_, ?_, rfl⟩ <;>
    simp [add_developer_message, add_user_message, add_assistant_message,
      List.take_left]

/-! ## Claim C1: developer priming after clear-conversation -/

/-- Claim C1 (code bug): after the Clear Conversation handler empties the
history, a Send in the same session does not re-add the developer priming
message, because priming runs only at process startup (src/main.py lines
116-128) while the clear handler (lines 184-188) merely empties and persists
the history - even though its own popup announces that the next prompt will
start fresh developer instructions.  Concretely: prime an empty history at
startup, clear the conversation, then send the prompt "Hello"; the history
handed to the completion endpoint is a single user message and does not
begin with a developer-role message. -/
theorem clear_then_send_no_developer_priming :
    sentRoles (sendEvent (fun _ => Except.error []) List.length
      (fun _ => Except.ok ('H':: 'i'::[]))
      (clearConvoEvent
        { history := startupHistory []
          loadedFiles := []
          persisted := startupHistory []
          response := []
          promptField := ('H':: 'e':: 'l':: 'l':: 'o'::[])
          filesField := [] })) = [Role.user] := by decide

/-! ## Claim C3: loaded-file set after ingestion -/

/-- Claim C3 counterexample: with one loaded file whose read fails, the send
handler aborts on the uncaught exception (there is no try/except around the
ingestion loop, and `loaded_files = []` on line 206 runs only after the
loop), so the loaded-file list is not cleared. -/
theorem files_cleared_counterexample :
    loadedAfter (sendEvent (fun _ => Except.error ('E'::[])) List.length
      (fun _ => Except.ok [])
      { history := [], loadedFiles := [('f'::[])], persisted := [],
        response := [], promptField := [], filesField := ('f'::[]) }) ≠ [] := by
  decide

/-- Claim C3 (amended): for a non-rejected send, the loaded-file set after
the event is empty exactly when every file was read successfully; when some
read fails partway through, the handler aborts with the exception uncaught
and the loaded-file set is left unchanged. -/
theorem files_cleared_iff_ingestion_ok (rf : Str → Except Str Str)
    (tok : Str → Nat) (cm : List Message → Except Str Str) (st : AppState)
    (hsend : ¬ (pyStrip st.promptField = [] ∧ st.loadedFiles = [])) :
    loadedAfter (sendEvent rf tok cm st) =
      match ingestFiles rf tok st.loadedFiles st.history with
      | Except.ok _ => []
      | Except.error _ => st.loadedFiles := by
  unfold sendEvent
  rw [if_neg hsend]
  cases hi : ingestFiles rf tok st.loadedFiles st.history with
  | error ep => rfl
  | ok hist1 =>
    show loadedAfter (finishSend cm st (afterPrompt st hist1)) = []
    unfold finishSend
    cases cm (completionRequestMessages (afterPrompt st hist1)) <;> rfl

/-- Claim C3 witness: the amended statement at a concrete send with one
successfully read file. -/
theorem files_cleared_witness :
    loadedAfter (sendEvent (fun _ => Except.ok ('a'::[])) List.length
      (fun _ => Except.ok ('R'::[]))
      { history := [], loadedFiles := [('f'::[])], persisted := [],
        response := [], promptField := [], filesField := ('f'::[]) }) =
      match ingestFiles (fun _ => Except.ok ('a'::[])) List.length
          [('f'::[])] [] with
      | Except.ok _ => []
      | Except.error _ => [('f'::[])] :=
  files_cleared_iff_ingestion_ok (fun _ => Except.ok ('a'::[])) List.length
    (fun _ => Except.ok ('R'::[]))
    { history := [], loadedFiles := [('f'::[])], persisted := [],
      response := [], promptField := [], filesField := ('f'::[]) }
    (by decide)

/-! ## Claim C6: completion failure -/

/-- Claim C6: when the completion call fails, no assistant message is
appended for that turn - the final history equals the history handed to the
completion call (files and prompt already appended), that history is exactly
what is persisted, and the displayed text is the error string. -/
theorem completion_failure_preserves_history (rf : Str → Except Str Str)
    (tok : Str → Nat) (cm : List Message → Except Str Str) (st : AppState)
    (sent : List Message) (stf : AppState) (e : Str)
    (hsend : sendEvent rf tok cm st = SendOutcome.completed sent stf)
    (hcm : cm sent = Except.error e) :
    stf.history = sent ∧ stf.persisted = sent ∧ stf.response = errStr e := by
  unfold sendEvent at hsend
  split at hsend
  · exact absurd hsend (by simp)
  · split at hsend
    · exact absurd hsend (by simp)
    · rename_i hist1 hi
      unfold finishSend at hsend
      split at hsend
      · rename_i answer hc
        injection hsend with h1 h2
        rw [← h1] at hcm
        rw [show completionRequestMessages (afterPrompt st hist1) =
          afterPrompt st hist1 from rfl, hcm] at hc
        exact Except.noConfusion hc
      · rename_i e2 hc
        injection hsend with h1 h2
        subst h1
        subst h2
        rw [show completionRequestMessages (afterPrompt st hist1) =
          afterPrompt st hist1 from rfl, hcm] at hc
        injection hc with he
        subst he
        exact ⟨rfl, rfl, rfl⟩

/-- Claim C6 witness: a concrete send whose completion call fails with
message "x": the final state keeps exactly the user message, persists it,
and displays `"Error: x"`. -/
theorem completion_failure_witness :
    ({ history := [⟨Role.user, ('h'::[])⟩]
       loadedFiles := []
       persisted := [⟨Role.user, ('h'::[])⟩]
       response := errStr ('x'::[])
       promptField := []
       filesField := [] } : AppState).history = [⟨Role.user, ('h'::[])⟩] ∧
      ({ history := [⟨Role.user, ('h'::[])⟩]
         loadedFiles := []
         persisted := [⟨Role.user, ('h'::[])⟩]
         response := errStr ('x'::[])
         promptField := []
         filesField := [] } : AppState).persisted = [⟨Role.user, ('h'::[])⟩] ∧
      ({ history := [⟨Role.user, ('h'::[])⟩]
         loadedFiles := []
         persisted := [⟨Role.user, ('h'::[])⟩]
         response := errStr ('x'::[])
         promptField := []
         filesField := [] } : AppState).response = errStr ('x'::[]) :=
  completion_failure_preserves_history (fun _ => Except.error []) List.length
    (fun _ => Except.error ('x'::[]))
    { history := [], loadedFiles := [], persisted := [], response := [],
      promptField := ('h'::[]), filesField := [] }
    [⟨Role.user, ('h'::[])⟩]
    { history := [⟨Role.user, ('h'::[])⟩], loadedFiles := [],
      persisted := [⟨Role.user, ('h'::[])⟩], response := errStr ('x'::[]),
      promptField := [], filesField := [] }
    ('x'::[]) (by decide) rfl

/-! ## Claim C9: rejected empty send -/

/-- Claim C9: a send whose prompt strips to empty while no files are loaded
is rejected with the warning popup and the state is returned untouched: the
in-memory history, the persisted file, and the loaded-file set are all
unchanged. -/
theorem empty_send_rejected (rf : Str → Except Str Str) (tok : Str → Nat)
    (cm : List Message → Except Str Str) (st : AppState)
    (hp : pyStrip st.promptField = []) (hf : st.loadedFiles = []) :
    sendEvent rf tok cm st = SendOutcome.rejected emptySendWarning st := by
  unfold sendEvent
  rw [if_pos ⟨hp, hf⟩]

/-- Claim C9 witness: the rejection at a concrete whitespace-only prompt
with no loaded files. -/
theorem empty_send_rejected_witness :
    sendEvent (fun _ => Except.error []) List.length (fun _ => Except.ok [])
      { history := [], loadedFiles := [], persisted := [], response := [],
        promptField := (' '::[]), filesField := [] } =
      SendOutcome.rejected emptySendWarning
        { history := [], loadedFiles := [], persisted := [], response := [],
          promptField := (' '::[]), filesField := [] } :=
  empty_send_rejected (fun _ => Except.error []) List.length
    (fun _ => Except.ok [])
    { history := [], loadedFiles := [], persisted := [], response := [],
      promptField := (' '::[]), filesField := [] }
    (by decide) rfl

/-! ## Claim C10: prompt stripping -/

/-- Claim C10: the free-text prompt is stripped before use: two send events
whose prompts agree after stripping produce the same observable outcome
(everything except the literal text left in the prompt input box), and the
prompt message appended after ingestion is exactly the stripped prompt - no
message at all when it strips to empty, so a whitespace-only prompt behaves
exactly like an empty one. -/
theorem prompt_stripped_before_append (rf : Str → Except Str Str)
    (tok : Str → Nat) (cm : List Message → Except Str Str) (st : AppState)
    (p1 p2 : Str) (hist1 : List Message) (h : pyStrip p1 = pyStrip p2) :
    sendCore (sendEvent rf tok cm { st with promptField := p1 }) =
        sendCore (sendEvent rf tok cm { st with promptField := p2 }) ∧
      afterPrompt { st with promptField := p1 } hist1 =
        hist1 ++ (if pyStrip p1 = [] then []
          else [⟨Role.user, pyStrip p1⟩]) := by
  have hafter : ∀ h1, afterPrompt { st with promptField := p1 } h1 =
      afterPrompt { st with promptField := p2 } h1 := by
    intro h1
    unfold afterPrompt
    simp only [show ({ st with promptField := p1 } : AppState).promptField = p1
        from rfl,
      show ({ st with promptField := p2 } : AppState).promptField = p2
        from rfl, h]
  have hfin : ∀ h2, finishSend cm { st with promptField := p1 } h2 =
      finishSend cm { st with promptField := p2 } h2 := by
    intro h2
    unfold finishSend
    cases cm (completionRequestMessages h2) <;> rfl
  constructor
  · unfold sendEvent
    simp only [show ({ st with promptField := p1 } : AppState).promptField = p1
        from rfl,
      show ({ st with promptField := p2 } : AppState).promptField = p2
        from rfl,
      show ({ st with promptField := p1 } : AppState).loadedFiles =
        st.loadedFiles from rfl,
      show ({ st with promptField := p2 } : AppState).loadedFiles =
        st.loadedFiles from rfl,
      show ({ st with promptField := p1 } : AppState).history = st.history
        from rfl,
      show ({ st with promptField := p2 } : AppState).history = st.history
        from rfl, h]
    by_cases hg : pyStrip p2 = [] ∧ st.loadedFiles = []
    · rw [if_pos hg, if_pos hg]
      rfl
    · rw [if_neg hg, if_neg hg]
      cases hi : ingestFiles rf tok st.loadedFiles st.history with
      | error ep => rfl
      | ok h1 =>
        show sendCore (finishSend cm { st with promptField := p1 }
            (afterPrompt { st with promptField := p1 } h1)) =
          sendCore (finishSend cm { st with promptField := p2 }
            (afterPrompt { st with promptField := p2 } h1))
        rw [hafter h1, hfin (afterPrompt { st with promptField := p2 } h1)]
  · unfold afterPrompt
    simp only [show ({ st with promptField := p1 } : AppState).promptField = p1
      from rfl]
    by_cases hp : pyStrip p1 = []
    · rw [if_pos hp, if_pos hp]
      exact (List.append_nil hist1).symm
    · rw [if_neg hp, if_neg hp]
      rfl

/-- Claim C10 witness: sends with prompts `" hi "` and `"hi"` have identical
observable outcomes. -/
theorem prompt_stripped_witness :
    sendCore (sendEvent (fun _ => Except.error []) List.length
        (fun _ => Except.ok ('R'::[]))
        { history := [], loadedFiles := [], persisted := [], response := [],
          promptField := (' ':: 'h':: 'i':: ' '::[]), filesField := [] }) =
      sendCore (sendEvent (fun _ => Except.error []) List.length
        (fun _ => Except.ok ('R'::[]))
        { history := [], loadedFiles := [], persisted := [], response := [],
          promptField := ('h':: 'i'::[]), filesField := [] }) :=
  (prompt_stripped_before_append (fun _ => Except.error []) List.length
    (fun _ => Except.ok ('R'::[]))
    { history := [], loadedFiles := [], persisted := [], response := [],
      promptField := [], filesField := [] }
    (' ':: 'h':: 'i':: ' '::[]) ('h':: 'i'::[]) [] (by decide)).1

end SimpleBot
